import Mathlib

/-!
Verification of the AuthBridge AuthProxy core against its specification.

Shallow embedding of:
- `AuthBridge/AuthProxy/go-processor/main.go` — the Envoy External Processor
  (config loading, credential wait loop, token exchange, header rewriting);
- `AuthBridge/AuthProxy/quickstart/demo-app/main.go` — the demo target's
  token validator (`validateJWT`, `authHandler`) and the quickstart variant
  of the processor's `loadConfig`.

Network I/O (the HTTP POST to the token endpoint, the JWKS fetch, the JWT
signature check) is modelled by explicit oracle parameters; file and
environment access by explicit functions `String -> Option String` and
`String -> String`.  Machine behaviour that the Go code delegates to its
standard library (`strings.HasPrefix`, `strings.TrimPrefix`,
`strings.EqualFold`, `encoding/json` unmarshalling into the
`tokenExchangeResponse` struct) is translated here function by function.
-/

/-! ## Go string helpers -/

/-- Models Go `strings.HasPrefix` (byte/char level; all involved data is ASCII). -/
def strHasPfx (pre s : String) : Bool :=
  pre.data.isPrefixOf s.data

/-- Models Go `strings.TrimPrefix`: drop `pre` from the front of `s` when it is
a prefix, otherwise return `s` unchanged. -/
def trimPfx (s pre : String) : String :=
  if strHasPfx pre s then String.mk (s.data.drop pre.data.length) else s

/-- Models Go `strings.EqualFold` restricted to ASCII case folding, which is all
the source uses it for (header-name comparison, JSON field-name matching). -/
def eqFold (a b : String) : Bool :=
  a.data.map Char.toLower == b.data.map Char.toLower

/-! ## Envoy header model (`envoy/config/core/v3.HeaderValue` and friends) -/

/-- One HTTP header as the processor sees it (`core.HeaderValue`). -/
structure HeaderValue where
  key : String
  rawValue : String
deriving DecidableEq, Repr

/-- Source `getHeaderValue`: first header whose key matches case-insensitively,
empty string when absent. -/
def getHeaderValue (headers : List HeaderValue) (key : String) : String :=
  match headers with
  | [] => ""
  | header :: rest =>
      if eqFold header.key key then header.rawValue else getHeaderValue rest key

/-- `core.HeaderValueOption` (only the `Header` field is used by the source). -/
structure HeaderValueOption where
  header : HeaderValue
deriving DecidableEq, Repr

/-- `v3.HeaderMutation`: the source only ever populates `SetHeaders`;
`removeHeaders` stays empty, which claim C1 relies on. -/
structure HeaderMutation where
  setHeaders : List HeaderValueOption
  removeHeaders : List String
deriving DecidableEq, Repr

/-- `v3.CommonResponse` (only `HeaderMutation` is used). -/
structure CommonResponse where
  headerMutation : Option HeaderMutation
deriving DecidableEq, Repr

/-- `v3.HeadersResponse`. -/
structure HeadersResponse where
  response : Option CommonResponse
deriving DecidableEq, Repr

/-- `v3.ProcessingResponse`: the tagged union the processor sends back per
event. `empty` is the zero value `&v3.ProcessingResponse{}`. -/
inductive ProcessingResponse where
  | empty
  | requestHeaders (hr : HeadersResponse)
  | responseHeaders (hr : HeadersResponse)
deriving DecidableEq, Repr

/-! ## JSON model and `encoding/json` unmarshalling of `tokenExchangeResponse` -/

/-- JSON values, as `encoding/json` sees a syntactically valid body. -/
inductive Json where
  | null
  | bool (b : Bool)
  | num (n : Int)
  | str (s : String)
  | arr (elems : List Json)
  | obj (fields : List (String × Json))

/-- An HTTP response body: its raw text (used in error messages) together with
its parse status — either not valid JSON, or a JSON value. -/
inductive BodyData where
  | malformed (text : String)
  | wellFormed (text : String) (value : Json)

/-- The raw text of a body, as Go `string(body)`. -/
def bodyText : BodyData → String
  | .malformed t => t
  | .wellFormed t _ => t

/-- Source struct `tokenExchangeResponse` with json tags
`access_token`, `token_type`, `expires_in`. -/
structure TokenExchangeResp where
  accessToken : String
  tokenType : String
  expiresIn : Int
deriving DecidableEq, Repr

/-- The Go zero value of `tokenExchangeResponse`. -/
def TokenExchangeResp.zero : TokenExchangeResp := ⟨"", "", 0⟩

/-- One step of `encoding/json` object decoding into `tokenExchangeResponse`:
a field whose (case-folded) key matches a json tag must carry a value of the
field's type, otherwise unmarshalling reports an error; unknown keys are
ignored; later duplicates overwrite earlier ones. -/
def applyJsonField (r : TokenExchangeResp) (k : String) (v : Json) :
    Except String TokenExchangeResp :=
  if eqFold k "access_token" then
    match v with
    | .str s => .ok { r with accessToken := s }
    | _ => .error "cannot unmarshal value into field access_token of type string"
  else if eqFold k "token_type" then
    match v with
    | .str s => .ok { r with tokenType := s }
    | _ => .error "cannot unmarshal value into field token_type of type string"
  else if eqFold k "expires_in" then
    match v with
    | .num n => .ok { r with expiresIn := n }
    | _ => .error "cannot unmarshal value into field expires_in of type int"
  else .ok r

/-- Fold `applyJsonField` over an object's fields, stopping at the first error
(the error `json.Unmarshal` would return). -/
def unmarshalFields (r : TokenExchangeResp) :
    List (String × Json) → Except String TokenExchangeResp
  | [] => .ok r
  | (k, v) :: rest =>
      match applyJsonField r k v with
      | .ok r2 => unmarshalFields r2 rest
      | .error e => .error e

/-- Models `json.Unmarshal(body, &tokenResp)`: a syntax error fails; JSON
`null` leaves the zero value; a JSON object decodes field by field; any other
top-level value cannot populate a struct and fails.  Note that an object
*missing* `access_token` decodes successfully, leaving the field at its zero
value `""`. -/
def unmarshalTokenResp : BodyData → Except String TokenExchangeResp
  | .malformed _ => .error "invalid character in response body"
  | .wellFormed _ j =>
      match j with
      | .null => .ok TokenExchangeResp.zero
      | .obj fields => unmarshalFields TokenExchangeResp.zero fields
      | _ => .error "cannot unmarshal value into Go value of type tokenExchangeResponse"

/-! ## Token exchange (`exchangeToken`) -/

/-- The form-encoded POST that `exchangeToken` sends (`url.Values` fields plus
the target URL). -/
structure TokenRequest where
  tokenURL : String
  clientID : String
  clientSecret : String
  grantType : String
  requestedTokenType : String
  subjectToken : String
  subjectTokenType : String
  audience : String
  scope : String
deriving DecidableEq, Repr

/-- The observable outcome of `http.PostForm` + `io.ReadAll`: a transport
error, a body-read error, or a status code with a body. -/
inductive HttpOutcome where
  | transportError (msg : String)
  | readError (msg : String)
  | ok (statusCode : Nat) (body : BodyData)

/-- The errors `exchangeToken` can return, one constructor per `return`
site carrying exactly what the Go error carries. -/
inductive ExchangeError where
  | transport (msg : String)
  | readBody (msg : String)
  | httpStatus (statusCode : Nat) (body : String)
  | unmarshal (msg : String)
deriving DecidableEq, Repr

/-- The message of an `exchangeToken` error, following the source's format
strings (`status.Errorf(codes.Internal, "token exchange failed: %s", body)`). -/
def ExchangeError.message : ExchangeError → String
  | .transport m => m
  | .readBody m => m
  | .httpStatus _ body => "token exchange failed: " ++ body
  | .unmarshal m => m

/-- The request `exchangeToken` builds from its arguments (source lines
setting `data`). -/
def builtRequest (clientID clientSecret tokenURL subjectToken audience scopes : String) :
    TokenRequest :=
  { tokenURL := tokenURL
    clientID := clientID
    clientSecret := clientSecret
    grantType := "urn:ietf:params:oauth:grant-type:token-exchange"
    requestedTokenType := "urn:ietf:params:oauth:token-type:access_token"
    subjectToken := subjectToken
    subjectTokenType := "urn:ietf:params:oauth:token-type:access_token"
    audience := audience
    scope := scopes }

/-- Source `exchangeToken`, with the network abstracted as an oracle
`net : TokenRequest → HttpOutcome`.  Mirrors the source exactly: transport and
read errors are returned as-is; a status other than 200 (`http.StatusOK`) is an
error carrying the body text; otherwise the body is unmarshalled and the
struct's `AccessToken` (possibly `""`) is returned. -/
def exchangeToken (net : TokenRequest → HttpOutcome)
    (clientID clientSecret tokenURL subjectToken audience scopes : String) :
    Except ExchangeError String :=
  match net (builtRequest clientID clientSecret tokenURL subjectToken audience scopes) with
  | .transportError m => .error (.transport m)
  | .readError m => .error (.readBody m)
  | .ok code body =>
      if code ≠ 200 then .error (.httpStatus code (bodyText body))
      else
        match unmarshalTokenResp body with
        | .error e => .error (.unmarshal e)
        | .ok tokenResp => .ok tokenResp.accessToken

/-- Whether an `Except` is a success. -/
def exceptIsOk {ε α : Type} : Except ε α → Bool
  | .ok _ => true
  | .error _ => false

/-! ## Processor configuration -/

/-- Source `Config` (the five exchange fields; the mutex is concurrency
plumbing with no effect on the resolved values). -/
structure Config where
  clientID : String
  clientSecret : String
  tokenURL : String
  targetAudience : String
  targetScopes : String
deriving DecidableEq, Repr

/-- The zero value `&Config{}` that `globalConfig` starts as. -/
def Config.zero : Config := ⟨"", "", "", "", ""⟩

/-! ## The request-headers event handler of `Process` -/

/-- One `ProcessingRequest_RequestHeaders` event of `Process`, as a pure
function of the current configuration, the network oracle and the header list.
Also returns the list of token-endpoint calls made while handling the event
(empty or a singleton), so that "no network call is attempted" is a statement
about the result.  Translated from the `case *v3.ProcessingRequest_RequestHeaders`
branch of `Process` (identical in both source variants). -/
def processRequestHeadersEvent (cfg : Config) (net : TokenRequest → HttpOutcome)
    (headers : List HeaderValue) : ProcessingResponse × List TokenRequest :=
  if cfg.clientID ≠ "" ∧ cfg.clientSecret ≠ "" ∧ cfg.tokenURL ≠ "" ∧
      cfg.targetAudience ≠ "" ∧ cfg.targetScopes ≠ "" then
    let authHeader := getHeaderValue headers "authorization"
    if authHeader ≠ "" then
      let subjectToken := trimPfx (trimPfx authHeader "Bearer ") "bearer "
      if subjectToken ≠ authHeader then
        let req := builtRequest cfg.clientID cfg.clientSecret cfg.tokenURL
          subjectToken cfg.targetAudience cfg.targetScopes
        match exchangeToken net cfg.clientID cfg.clientSecret cfg.tokenURL
            subjectToken cfg.targetAudience cfg.targetScopes with
        | .ok newToken =>
            (.requestHeaders ⟨some ⟨some ⟨[⟨⟨"authorization", "Bearer " ++ newToken⟩⟩], []⟩⟩⟩,
              [req])
        | .error _ =>
            (.requestHeaders ⟨none⟩, [req])
      else (.requestHeaders ⟨none⟩, [])
    else (.requestHeaders ⟨none⟩, [])
  else (.requestHeaders ⟨none⟩, [])

/-! ## Configuration loading (`readFileContent`, `loadConfig`, both variants) -/

/-- Models Go `strings.TrimSpace`: drop whitespace from both ends. -/
def trimSpace (s : String) : String :=
  String.mk (((s.data.dropWhile Char.isWhitespace).reverse.dropWhile
    Char.isWhitespace).reverse)

/-- Source `readFileContent`: read a file, trimming surrounding whitespace;
`none` models a read error.  `fs` models the filesystem. -/
def readFileContent (fs : String → Option String) (path : String) : Option String :=
  match fs path with
  | some content => some (trimSpace content)
  | none => none

/-- The two credential file paths as both `loadConfig` variants and
`waitForCredentials` resolve them: `CLIENT_ID_FILE` / `CLIENT_SECRET_FILE`
from the environment, with fixed defaults. -/
def credFilePaths (env : String → String) : String × String :=
  (if env "CLIENT_ID_FILE" = "" then "/shared/client-id.txt" else env "CLIENT_ID_FILE",
   if env "CLIENT_SECRET_FILE" = "" then "/shared/client-secret.txt" else env "CLIENT_SECRET_FILE")

/-- Source `loadConfig` of `go-processor/main.go`: URL/audience/scopes come
from the environment; for the credentials the file is tried FIRST and the
environment variable is only a fallback; when neither yields a non-empty
value the previous global value (`prev`) is left in place. -/
def loadConfig (env : String → String) (fs : String → Option String)
    (prev : Config) : Config :=
  let paths := credFilePaths env
  let clientID :=
    match readFileContent fs paths.1 with
    | some cid =>
        if cid ≠ "" then cid
        else if env "CLIENT_ID" ≠ "" then env "CLIENT_ID" else prev.clientID
    | none =>
        if env "CLIENT_ID" ≠ "" then env "CLIENT_ID" else prev.clientID
  let clientSecret :=
    match readFileContent fs paths.2 with
    | some sec =>
        if sec ≠ "" then sec
        else if env "CLIENT_SECRET" ≠ "" then env "CLIENT_SECRET" else prev.clientSecret
    | none =>
        if env "CLIENT_SECRET" ≠ "" then env "CLIENT_SECRET" else prev.clientSecret
  { clientID := clientID
    clientSecret := clientSecret
    tokenURL := env "TOKEN_URL"
    targetAudience := env "TARGET_AUDIENCE"
    targetScopes := env "TARGET_SCOPES" }

/-- Source `loadConfig` of the quickstart variant
(`quickstart/demo-app/main.go`, second compilation unit): the environment
variables are prioritized and the files are only a fallback. -/
def loadConfigDemo (env : String → String) (fs : String → Option String)
    (prev : Config) : Config :=
  let paths := credFilePaths env
  let clientID :=
    if env "CLIENT_ID" ≠ "" then env "CLIENT_ID"
    else
      match readFileContent fs paths.1 with
      | some cid => if cid ≠ "" then cid else prev.clientID
      | none => prev.clientID
  let clientSecret :=
    if env "CLIENT_SECRET" ≠ "" then env "CLIENT_SECRET"
    else
      match readFileContent fs paths.2 with
      | some sec => if sec ≠ "" then sec else prev.clientSecret
      | none => prev.clientSecret
  { clientID := clientID
    clientSecret := clientSecret
    tokenURL := env "TOKEN_URL"
    targetAudience := env "TARGET_AUDIENCE"
    targetScopes := env "TARGET_SCOPES" }

/-! ## Startup credential wait (`waitForCredentials`) -/

/-- Whether one poll of the two credential files succeeds: both reads must
succeed and both trimmed contents must be non-empty (source condition
`err1 == nil && err2 == nil && clientID != "" && clientSecret != ""`). -/
def credsReady (fs : String → Option String) (p1 p2 : String) : Bool :=
  match readFileContent fs p1, readFileContent fs p2 with
  | some cid, some sec => cid ≠ "" && sec ≠ ""
  | _, _ => false

/-- The polling loop of `waitForCredentials`.  Time is modelled as a `Nat`
clock (`now`); the filesystem may change over time (`fsAt : Nat → ...`); each
unsuccessful poll is followed by `time.Sleep(2 * time.Second)`, advancing the
clock by 2.  Returns the source's boolean together with the clock value at
return, so that the elapsed time is part of the result. -/
def waitForCredentialsLoop (fsAt : Nat → String → Option String) (p1 p2 : String)
    (now deadline : Nat) : Bool × Nat :=
  if now < deadline then
    if credsReady (fsAt now) p1 p2 then (true, now)
    else waitForCredentialsLoop fsAt p1 p2 (now + 2) deadline
  else (false, now)
termination_by deadline - now
decreasing_by omega

/-- Source `waitForCredentials`: resolve the two file paths, then poll until
the deadline `start + maxWait`. -/
def waitForCredentials (env : String → String) (fsAt : Nat → String → Option String)
    (start maxWait : Nat) : Bool × Nat :=
  let paths := credFilePaths env
  waitForCredentialsLoop fsAt paths.1 paths.2 start (start + maxWait)

/-! ## Token Validator (`quickstart/demo-app/main.go`: `validateJWT`, `authHandler`) -/

/-- The verification key set fetched from the JWKS endpoint; opaque to the
validator, which only hands it to the parser. -/
structure KeySet where
  keyIDs : List String
deriving DecidableEq, Repr

/-- The claims of a successfully parsed and signature-verified token, as the
validator reads them (`token.Issuer()`, `token.Audience()`, `token.Subject()`). -/
structure TokenClaims where
  issuer : String
  audience : List String
  subject : String
deriving DecidableEq, Repr

/-- The errors `validateJWT` can return, one constructor per `return` site. -/
inductive ValidateError where
  | jwksFetch (msg : String)
  | parseValidate (msg : String)
  | issuer (expected got : String)
  | audience (expected : String) (got : List String)
deriving DecidableEq, Repr

/-- Source `validateJWT`, with the JWKS cache fetch and the combined
parse/signature/time validation (`jwt.Parse` with `jwt.WithKeySet`,
`jwt.WithValidate(true)`) abstracted as oracles.  Returns `none` for the Go
`nil` error (token accepted).  The audience loop is translated as written: it
scans the token's audience list for an element equal to `expectedAudience`
and rejects when none is found — there is no empty-audience bypass. -/
def validateJWT (cacheGet : String → Except String KeySet)
    (jwtParse : String → KeySet → Except String TokenClaims)
    (tokenString jwksURL expectedIssuer expectedAudience : String) :
    Option ValidateError :=
  match cacheGet jwksURL with
  | .error e => some (.jwksFetch e)
  | .ok keySet =>
      match jwtParse tokenString keySet with
      | .error e => some (.parseValidate e)
      | .ok token =>
          if token.issuer ≠ expectedIssuer then
            some (.issuer expectedIssuer token.issuer)
          else
            let validAudience := token.audience.any (fun aud => aud == expectedAudience)
            if ¬ validAudience then some (.audience expectedAudience token.audience)
            else none

/-- The startup environment check of the demo app's `main`: it calls
`log.Fatal` — refusing to serve — unless `JWKS_URL`, `ISSUER` and `AUDIENCE`
are all non-empty.  In particular there is no way to run this validator with
an empty expected audience. -/
def demoAppEnvOk (jwksURL issuer audience : String) : Bool :=
  jwksURL ≠ "" && issuer ≠ "" && audience ≠ ""

/-- The HTTP outcomes of `authHandler`, one per `return`/write site. -/
inductive HandlerOutcome where
  | unauthorizedMissing
  | unauthorizedFormat
  | unauthorizedToken (e : ValidateError)
  | authorized
deriving DecidableEq, Repr

/-- Source `authHandler`: 401 on a missing `Authorization` header; strip the
prefix `"Bearer "` (capital B only — this handler, unlike the External
Processor, does not also try `"bearer "`), 401 on a format mismatch; otherwise
validate.  The boolean records whether `validateJWT` was invoked. -/
def authHandler (cacheGet : String → Except String KeySet)
    (jwtParse : String → KeySet → Except String TokenClaims)
    (authHeader jwksURL issuer audience : String) : HandlerOutcome × Bool :=
  if authHeader = "" then (.unauthorizedMissing, false)
  else
    let tokenString := trimPfx authHeader "Bearer "
    if tokenString = authHeader then (.unauthorizedFormat, false)
    else
      match validateJWT cacheGet jwtParse tokenString jwksURL issuer audience with
      | some e => (.unauthorizedToken e, true)
      | none => (.authorized, true)

/-! ## Helper lemmas about the Go string primitives -/

theorem strHasPfx_append (p t : String) : strHasPfx p (p ++ t) = true := by
  simp [strHasPfx, String.data_append]

theorem trimPfx_append (p t : String) : trimPfx (p ++ t) p = t := by
  apply String.ext
  simp [trimPfx, strHasPfx_append, String.data_append, List.drop_left]

theorem trimPfx_not_pfx {p s : String} (h : strHasPfx p s = false) : trimPfx s p = s := by
  simp [trimPfx, h]

theorem data_length_pos_of_ne_empty {p : String} (hp : p ≠ "") : 0 < p.data.length := by
  rcases p with ⟨l⟩
  cases l with
  | nil => exact absurd rfl hp
  | cons c cs => simp

theorem strHasPfx_length_le {p s : String} (h : strHasPfx p s = true) :
    p.data.length ≤ s.data.length :=
  List.IsPrefix.length_le (List.isPrefixOf_iff_prefix.mp h)

theorem trimPfx_data_length_le (s p : String) : (trimPfx s p).data.length ≤ s.data.length := by
  by_cases h : strHasPfx p s
  · rw [trimPfx, if_pos h]
    simp only [List.length_drop]
    omega
  · rw [trimPfx, if_neg h]

theorem trimPfx_data_length_lt {p s : String} (h : strHasPfx p s = true) (hp : p ≠ "") :
    (trimPfx s p).data.length < s.data.length := by
  have h1 := strHasPfx_length_le h
  have h2 := data_length_pos_of_ne_empty hp
  rw [trimPfx, if_pos h]
  simp only [List.length_drop]
  omega

theorem trimPfx_ne_self {p s : String} (h : strHasPfx p s = true) (hp : p ≠ "") :
    trimPfx s p ≠ s := by
  intro heq
  have hlt := trimPfx_data_length_lt h hp
  rw [heq] at hlt
  omega

/-- The processor's two-step prefix strip changes the header value exactly when
one of the two recognized bearer prefixes is present. -/
theorem doubleTrim_ne {s : String}
    (h : strHasPfx "Bearer " s = true ∨ strHasPfx "bearer " s = true) :
    trimPfx (trimPfx s "Bearer ") "bearer " ≠ s := by
  by_cases hB : strHasPfx "Bearer " s = true
  · intro heq
    have h1 : (trimPfx s "Bearer ").data.length < s.data.length :=
      trimPfx_data_length_lt hB (by decide)
    have h2 := trimPfx_data_length_le (trimPfx s "Bearer ") "bearer "
    rw [heq] at h2
    omega
  · have hb : strHasPfx "bearer " s = true := by
      rcases h with h | h
      · exact absurd h hB
      · exact h
    rw [trimPfx_not_pfx (Bool.eq_false_iff.mpr hB)]
    exact trimPfx_ne_self hb (by decide)

theorem ne_empty_of_pfx {p s : String} (h : strHasPfx p s = true) (hp : p ≠ "") :
    s ≠ "" := by
  intro heq
  subst heq
  have h1 := strHasPfx_length_le h
  have h2 := data_length_pos_of_ne_empty hp
  simp only [List.length_nil] at h1
  omega

theorem notBearerPfx (rest : String) : strHasPfx "Bearer " ("bearer " ++ rest) = false := by
  show List.isPrefixOf ['B', 'e', 'a', 'r', 'e', 'r', ' ']
    (['b', 'e', 'a', 'r', 'e', 'r', ' '] ++ rest.data) = false
  simp [List.isPrefixOf]

/-- When the strip does change the value, both the strip and its argument are
what the two-step `TrimPrefix` composition computes. -/
theorem doubleTrim_of_no_pfx {s : String}
    (h1 : strHasPfx "Bearer " s = false) (h2 : strHasPfx "bearer " s = false) :
    trimPfx (trimPfx s "Bearer ") "bearer " = s := by
  rw [trimPfx_not_pfx h1, trimPfx_not_pfx h2]

/-! ## Claim C2 -/

/-- Claim C2: a request-headers event processed while any one of the five
configuration fields is empty makes no call to the token endpoint and yields
the unmodified (empty) response. -/
theorem c2_config_gate (cfg : Config) (net : TokenRequest → HttpOutcome)
    (headers : List HeaderValue)
    (h : cfg.clientID = "" ∨ cfg.clientSecret = "" ∨ cfg.tokenURL = "" ∨
      cfg.targetAudience = "" ∨ cfg.targetScopes = "") :
    processRequestHeadersEvent cfg net headers =
      (ProcessingResponse.requestHeaders ⟨none⟩, []) := by
  rw [processRequestHeadersEvent, if_neg]
  rintro ⟨h1, h2, h3, h4, h5⟩
  rcases h with h | h | h | h | h <;> contradiction

/-! ## Claim C7 -/

/-- Claim C7: when the header set has no `Authorization` value (case-insensitive
lookup yields `""`), or the value begins with neither `"Bearer "` nor
`"bearer "`, the processor emits the unmodified empty response and attempts no
exchange, whatever the configuration. -/
theorem c7_passthrough (cfg : Config) (net : TokenRequest → HttpOutcome)
    (headers : List HeaderValue)
    (h : getHeaderValue headers "authorization" = "" ∨
      (strHasPfx "Bearer " (getHeaderValue headers "authorization") = false ∧
       strHasPfx "bearer " (getHeaderValue headers "authorization") = false)) :
    processRequestHeadersEvent cfg net headers =
      (ProcessingResponse.requestHeaders ⟨none⟩, []) := by
  by_cases hc : cfg.clientID ≠ "" ∧ cfg.clientSecret ≠ "" ∧ cfg.tokenURL ≠ "" ∧
      cfg.targetAudience ≠ "" ∧ cfg.targetScopes ≠ ""
  · rw [processRequestHeadersEvent, if_pos hc]
    rcases h with h | ⟨h1, h2⟩
    · rw [h]
      simp
    · by_cases he : getHeaderValue headers "authorization" = ""
      · rw [he]
        simp
      · rw [if_pos he]
        have hne := doubleTrim_of_no_pfx h1 h2
        simp [hne]
  · rw [processRequestHeadersEvent, if_neg hc]

/-! ## Claim C1 -/

/-- Claim C1: with a complete configuration, a bearer `Authorization` header
and a token endpoint answering 200 with a JSON body whose `access_token` is
`newTok`, the emitted response's header mutation sets `authorization` to
exactly `"Bearer " ++ newTok`, sets no other header and removes none. -/
theorem c1_exchange_rewrites (cfg : Config) (net : TokenRequest → HttpOutcome)
    (headers : List HeaderValue) (newTok btxt : String)
    (hc : cfg.clientID ≠ "" ∧ cfg.clientSecret ≠ "" ∧ cfg.tokenURL ≠ "" ∧
      cfg.targetAudience ≠ "" ∧ cfg.targetScopes ≠ "")
    (hpfx : strHasPfx "Bearer " (getHeaderValue headers "authorization") = true ∨
      strHasPfx "bearer " (getHeaderValue headers "authorization") = true)
    (hnet : ∀ r, net r = HttpOutcome.ok 200 (BodyData.wellFormed btxt
      (Json.obj [("access_token", Json.str newTok), ("token_type", Json.str "Bearer"),
        ("expires_in", Json.num 300)]))) :
    (processRequestHeadersEvent cfg net headers).1 =
      ProcessingResponse.requestHeaders
        ⟨some ⟨some ⟨[⟨⟨"authorization", "Bearer " ++ newTok⟩⟩], []⟩⟩⟩ := by
  have hauth : getHeaderValue headers "authorization" ≠ "" := by
    rcases hpfx with h | h
    · exact ne_empty_of_pfx h (by decide)
    · exact ne_empty_of_pfx h (by decide)
  have hne := doubleTrim_ne hpfx
  have hex : ∀ subj, exchangeToken net cfg.clientID cfg.clientSecret cfg.tokenURL
      subj cfg.targetAudience cfg.targetScopes = .ok newTok := by
    intro subj
    simp only [exchangeToken, hnet]
    rfl
  rw [processRequestHeadersEvent, if_pos hc, if_pos hauth, if_pos hne, hex]

/-! ## Claim C3 -/

/-- The exact condition under which `exchangeToken` fails, as a predicate on
the HTTP outcome it observes: transport error, body-read error, status other
than 200, or a body `json.Unmarshal` rejects. -/
def httpOutcomeFails : HttpOutcome → Bool
  | .transportError _ => true
  | .readError _ => true
  | .ok code body => decide (code ≠ 200) || !(exceptIsOk (unmarshalTokenResp body))

/-- `exchangeToken` returns an error exactly when the endpoint's outcome
satisfies `httpOutcomeFails`. -/
theorem exchangeToken_error_of_fails (net : TokenRequest → HttpOutcome)
    (cid sec url tok aud sc : String)
    (h : httpOutcomeFails (net (builtRequest cid sec url tok aud sc)) = true) :
    ∃ e, exchangeToken net cid sec url tok aud sc = .error e := by
  rw [exchangeToken]
  cases hn : net (builtRequest cid sec url tok aud sc) with
  | transportError m => exact ⟨_, rfl⟩
  | readError m => exact ⟨_, rfl⟩
  | ok code body =>
      rw [hn] at h
      simp only [httpOutcomeFails] at h
      by_cases hcode : code = 200
      · subst hcode
        simp at h
        cases hu : unmarshalTokenResp body with
        | error e =>
            refine ⟨ExchangeError.unmarshal e, ?_⟩
            simp [hu]
        | ok tr =>
            rw [hu] at h
            simp [exceptIsOk] at h
      · refine ⟨ExchangeError.httpStatus code (bodyText body), ?_⟩
        simp [hcode]

/-- Claim C3: when the token-exchange call fails (transport error, bad status,
or a malformed/unparsable body), the processor emits the unmodified empty
response — the original `Authorization` header is left untouched and the call
is not aborted. -/
theorem c3_failed_exchange_passthrough (cfg : Config) (net : TokenRequest → HttpOutcome)
    (headers : List HeaderValue)
    (hc : cfg.clientID ≠ "" ∧ cfg.clientSecret ≠ "" ∧ cfg.tokenURL ≠ "" ∧
      cfg.targetAudience ≠ "" ∧ cfg.targetScopes ≠ "")
    (hpfx : strHasPfx "Bearer " (getHeaderValue headers "authorization") = true ∨
      strHasPfx "bearer " (getHeaderValue headers "authorization") = true)
    (hnet : ∀ r, httpOutcomeFails (net r) = true) :
    (processRequestHeadersEvent cfg net headers).1 =
      ProcessingResponse.requestHeaders ⟨none⟩ := by
  have hauth : getHeaderValue headers "authorization" ≠ "" := by
    rcases hpfx with h | h
    · exact ne_empty_of_pfx h (by decide)
    · exact ne_empty_of_pfx h (by decide)
  have hne := doubleTrim_ne hpfx
  obtain ⟨e, hex⟩ := exchangeToken_error_of_fails net cfg.clientID cfg.clientSecret
    cfg.tokenURL
    (trimPfx (trimPfx (getHeaderValue headers "authorization") "Bearer ") "bearer ")
    cfg.targetAudience cfg.targetScopes (hnet _)
  rw [processRequestHeadersEvent, if_pos hc, if_pos hauth, if_pos hne, hex]

/-! ## Claim C4 -/

/-- A token endpoint that answers 200 with a well-formed JSON object that has
no `access_token` member. -/
def net200NoToken : TokenRequest → HttpOutcome :=
  fun _ => .ok 200 (.wellFormed "token_type only" (Json.obj [("token_type", Json.str "Bearer")]))

/-- A token endpoint that answers 201 Created — a 2xx status — with a
well-formed token body. -/
def net201Created : TokenRequest → HttpOutcome :=
  fun _ => .ok 201 (.wellFormed "created" (Json.obj [("access_token", Json.str "T2")]))

/-- Claim C4 counterexample: (a) a 200 response whose JSON object lacks
`access_token` yields success with the empty token — `json.Unmarshal` leaves
the field at its zero value and `exchangeToken` returns `nil` error — although
the claim says the absence of `access_token` is itself an error; (b) a 201
response — a 2xx status — yields an error, although the claim says only
non-2xx statuses are errors (the source compares against exactly 200). -/
theorem c4_counterexample :
    exchangeToken net200NoToken "cid" "sec" "url" "tok" "aud" "sc" = .ok "" ∧
    exchangeToken net201Created "cid" "sec" "url" "tok" "aud" "sc" =
      .error (.httpStatus 201 "created") :=
  ⟨rfl, rfl⟩

/-- Claim C4 (amended): `exchangeToken` succeeds iff the POST comes back with
status exactly 200 and a body `json.Unmarshal` accepts; a status other than
200 produces an error that carries the response body; a 200 body that is a
JSON object without `access_token` is NOT an error — it yields the empty
token. -/
theorem c4_exchange_error_characterization (net : TokenRequest → HttpOutcome)
    (cid sec url tok aud sc : String) :
    (exceptIsOk (exchangeToken net cid sec url tok aud sc) = true ↔
      ∃ body, net (builtRequest cid sec url tok aud sc) = HttpOutcome.ok 200 body ∧
        exceptIsOk (unmarshalTokenResp body) = true) ∧
    (∀ code body, net (builtRequest cid sec url tok aud sc) = HttpOutcome.ok code body →
      code ≠ 200 →
      exchangeToken net cid sec url tok aud sc =
        .error (.httpStatus code (bodyText body))) ∧
    (∀ btxt, net (builtRequest cid sec url tok aud sc) =
        HttpOutcome.ok 200 (BodyData.wellFormed btxt (Json.obj [])) →
      exchangeToken net cid sec url tok aud sc = .ok "") := by
  refine ⟨?_, ?_, ?_⟩
  · rw [exchangeToken]
    cases hn : net (builtRequest cid sec url tok aud sc) with
    | transportError m => simp [exceptIsOk]
    | readError m => simp [exceptIsOk]
    | ok code body =>
        by_cases hcode : code = 200
        · subst hcode
          cases hu : unmarshalTokenResp body with
          | error e => simp [hu, exceptIsOk]
          | ok tr => simp [hu, exceptIsOk]
        · simp [hcode, exceptIsOk]
  · intro code body hb hcode
    rw [exchangeToken, hb]
    simp [hcode]
  · intro btxt hb
    rw [exchangeToken, hb]
    rfl

/-! ## Concrete stub data for witnesses -/

/-- A token endpoint that always answers 200 with a good exchange body whose
new token is `"T2"`. -/
def netOkT2 : TokenRequest → HttpOutcome :=
  fun _ => .ok 200 (.wellFormed "token response"
    (Json.obj [("access_token", Json.str "T2"), ("token_type", Json.str "Bearer"),
      ("expires_in", Json.num 300)]))

/-- A token endpoint that always answers 400 with a non-JSON body. -/
def net400Bad : TokenRequest → HttpOutcome :=
  fun _ => .ok 400 (.malformed "invalid request")

/-- A token endpoint that answers 200 with the empty JSON object. -/
def net200EmptyObj : TokenRequest → HttpOutcome :=
  fun _ => .ok 200 (.wellFormed "empty object" (Json.obj []))

/-- A complete exchange configuration. -/
def cfgFull : Config :=
  ⟨"spiffe-client", "s3cret", "http://keycloak/token", "auth-target", "openid auth-target-aud"⟩

/-- A configuration with an empty `TokenURL`. -/
def cfgNoURL : Config := ⟨"cid", "sec", "", "aud", "sc"⟩

/-- A header set carrying a bearer `Authorization` header (mixed-case key, as
Envoy may deliver it). -/
def hdrsBearer : List HeaderValue :=
  [⟨"host", "auth-target"⟩, ⟨"Authorization", "Bearer subject-token"⟩]

/-- A header set with no `Authorization` header at all. -/
def hdrsNone : List HeaderValue := [⟨"host", "auth-target"⟩]

/-- Claim C1 witness at concrete inputs. -/
theorem c1_witness :
    strHasPfx "Bearer " (getHeaderValue hdrsBearer "authorization") = true ∧
    (processRequestHeadersEvent cfgFull netOkT2 hdrsBearer).1 =
      ProcessingResponse.requestHeaders
        ⟨some ⟨some ⟨[⟨⟨"authorization", "Bearer T2"⟩⟩], []⟩⟩⟩ :=
  ⟨by decide,
   c1_exchange_rewrites cfgFull netOkT2 hdrsBearer "T2" "token response"
     (by decide) (Or.inl (by decide)) (fun r => rfl)⟩

/-- Claim C2 witness at concrete inputs. -/
theorem c2_witness :
    cfgNoURL.tokenURL = "" ∧
    processRequestHeadersEvent cfgNoURL netOkT2 hdrsBearer =
      (ProcessingResponse.requestHeaders ⟨none⟩, []) :=
  ⟨rfl, c2_config_gate cfgNoURL netOkT2 hdrsBearer (Or.inr (Or.inr (Or.inl rfl)))⟩

/-- Claim C3 witness at concrete inputs: a 400 response leaves the request
untouched. -/
theorem c3_witness :
    (processRequestHeadersEvent cfgFull net400Bad hdrsBearer).1 =
      ProcessingResponse.requestHeaders ⟨none⟩ :=
  c3_failed_exchange_passthrough cfgFull net400Bad hdrsBearer (by decide)
    (Or.inl (by decide)) (fun r => rfl)

/-- Claim C4 witness at concrete inputs, exercising all three conjuncts of the
amended characterization. -/
theorem c4_witness :
    exchangeToken net201Created "cid" "sec" "url" "tok" "aud" "sc" =
      .error (.httpStatus 201 "created") ∧
    exchangeToken net200EmptyObj "cid" "sec" "url" "tok" "aud" "sc" = .ok "" ∧
    exceptIsOk (exchangeToken net200EmptyObj "cid" "sec" "url" "tok" "aud" "sc") = true :=
  ⟨(c4_exchange_error_characterization net201Created "cid" "sec" "url" "tok" "aud" "sc").2.1
      201 (BodyData.wellFormed "created" (Json.obj [("access_token", Json.str "T2")])) rfl
      (by decide),
   (c4_exchange_error_characterization net200EmptyObj "cid" "sec" "url" "tok" "aud" "sc").2.2
      "empty object" rfl,
   (c4_exchange_error_characterization net200EmptyObj "cid" "sec" "url" "tok" "aud" "sc").1.mpr
      ⟨BodyData.wellFormed "empty object" (Json.obj []), rfl, rfl⟩⟩

/-- Claim C7 witness at concrete inputs. -/
theorem c7_witness :
    getHeaderValue hdrsNone "authorization" = "" ∧
    processRequestHeadersEvent cfgFull netOkT2 hdrsNone =
      (ProcessingResponse.requestHeaders ⟨none⟩, []) :=
  ⟨rfl, c7_passthrough cfgFull netOkT2 hdrsNone (Or.inl rfl)⟩

/-! ## Claims C5, C9, C10 — the Token Validator -/

/-- A stub key set. -/
def demoKeySet : KeySet := ⟨["kid-1"]⟩

/-- A JWKS cache that always returns the stub key set. -/
def cacheGetStub : String → Except String KeySet := fun _ => .ok demoKeySet

/-- A parse/verify oracle for a token whose signature checks out and whose
claims are fixed. -/
def parseStub (claims : TokenClaims) : String → KeySet → Except String TokenClaims :=
  fun _ _ => .ok claims

/-- A signature-valid token with the demo issuer and audience `auth-target`. -/
def claimsGood : TokenClaims := ⟨"http://keycloak/realms/demo", ["auth-target"], "alice"⟩

/-- Claim C5 counterexample: a signature-valid, correct-issuer token with
audience `["auth-target"]` is REJECTED when the expected audience is empty
(the audience loop finds no element equal to `""`), and moreover the demo
app's `main` refuses to start at all when `AUDIENCE` is empty — there is no
transparent mode in this validator. -/
theorem c5_counterexample :
    validateJWT cacheGetStub (parseStub claimsGood) "signed-token"
      "http://keycloak/jwks" "http://keycloak/realms/demo" "" =
      some (.audience "" ["auth-target"]) ∧
    demoAppEnvOk "http://keycloak/jwks" "http://keycloak/realms/demo" "" = false :=
  ⟨rfl, rfl⟩

/-- Claim C5 (amended): `validateJWT` always performs the audience check: for
every expected audience — the empty string included — a signature-valid,
correct-issuer token whose audience set does not contain it is rejected with
an audience error; and the demo app refuses to start when `AUDIENCE` is
empty, so no request is ever validated with an empty expected audience. -/
theorem c5_validator_always_checks_audience
    (cacheGet : String → Except String KeySet)
    (jwtParse : String → KeySet → Except String TokenClaims)
    (tok url iss expAud : String) (ks : KeySet) (claims : TokenClaims)
    (hks : cacheGet url = .ok ks)
    (hp : jwtParse tok ks = .ok claims)
    (hiss : claims.issuer = iss)
    (haud : expAud ∉ claims.audience) :
    validateJWT cacheGet jwtParse tok url iss expAud =
      some (.audience expAud claims.audience) ∧
    demoAppEnvOk url iss "" = false := by
  constructor
  · have hany : claims.audience.any (fun aud => aud == expAud) = false := by
      rw [← Bool.not_eq_true]
      simp only [List.any_eq_true, beq_iff_eq]
      rintro ⟨x, hx, rfl⟩
      exact haud hx
    rw [validateJWT, hks]
    simp [hp, hiss, hany]
  · simp [demoAppEnvOk]

/-- Claim C5 witness for the amended statement at concrete inputs. -/
theorem c5_witness :
    validateJWT cacheGetStub (parseStub claimsGood) "tok-2"
      "http://keycloak/certs" "http://keycloak/realms/demo" "other-service" =
      some (.audience "other-service" ["auth-target"]) ∧
    demoAppEnvOk "http://keycloak/certs" "http://keycloak/realms/demo" "" = false :=
  c5_validator_always_checks_audience cacheGetStub (parseStub claimsGood) "tok-2"
    "http://keycloak/certs" "http://keycloak/realms/demo" "other-service" demoKeySet
    claimsGood rfl rfl rfl (by decide)

/-- Claim C9: a token that parses and signature-verifies but whose `iss` claim
differs (exact string comparison) from the expected issuer is rejected with an
issuer error. -/
theorem c9_wrong_issuer (cacheGet : String → Except String KeySet)
    (jwtParse : String → KeySet → Except String TokenClaims)
    (tok url expIss expAud : String) (ks : KeySet) (claims : TokenClaims)
    (hks : cacheGet url = .ok ks)
    (hp : jwtParse tok ks = .ok claims)
    (hiss : claims.issuer ≠ expIss) :
    validateJWT cacheGet jwtParse tok url expIss expAud =
      some (.issuer expIss claims.issuer) := by
  rw [validateJWT, hks]
  simp [hp, hiss]

/-- A signature-valid token from a different issuer. -/
def claimsWrongIss : TokenClaims := ⟨"http://evil/realms/demo", ["auth-target"], "alice"⟩

/-- Claim C9 witness at concrete inputs. -/
theorem c9_witness :
    validateJWT cacheGetStub (parseStub claimsWrongIss) "signed-token"
      "http://keycloak/jwks" "http://keycloak/realms/demo" "auth-target" =
      some (.issuer "http://keycloak/realms/demo" "http://evil/realms/demo") :=
  c9_wrong_issuer cacheGetStub (parseStub claimsWrongIss) "signed-token"
    "http://keycloak/jwks" "http://keycloak/realms/demo" "auth-target" demoKeySet
    claimsWrongIss rfl rfl (by decide)

/-- Claim C10: the demo app's handler strips only the exact prefix
`"Bearer "`: any `Authorization` value starting with lowercase `"bearer "`
gets the format 401 and `validateJWT` is never invoked — while the External
Processor's extraction (second conjunct) does treat the same value as a bearer
token and attempts an exchange. -/
theorem c10_handler_requires_capital_bearer (cacheGet : String → Except String KeySet)
    (jwtParse : String → KeySet → Except String TokenClaims)
    (rest jwksURL issuer audience : String) :
    authHandler cacheGet jwtParse ("bearer " ++ rest) jwksURL issuer audience =
      (.unauthorizedFormat, false) ∧
    (processRequestHeadersEvent cfgFull netOkT2
        [⟨"authorization", "bearer " ++ rest⟩]).2 ≠ [] := by
  have hne : ("bearer " ++ rest) ≠ "" :=
    ne_empty_of_pfx (strHasPfx_append "bearer " rest) (by decide)
  constructor
  · rw [authHandler, if_neg (fun h => hne h)]
    simp [trimPfx_not_pfx (notBearerPfx rest)]
  · have hc : cfgFull.clientID ≠ "" ∧ cfgFull.clientSecret ≠ "" ∧ cfgFull.tokenURL ≠ "" ∧
        cfgFull.targetAudience ≠ "" ∧ cfgFull.targetScopes ≠ "" := by decide
    have hauth : getHeaderValue [⟨"authorization", "bearer " ++ rest⟩] "authorization" =
        "bearer " ++ rest := rfl
    have hne2 := doubleTrim_ne (Or.inr (strHasPfx_append "bearer " rest))
    have hex : exchangeToken netOkT2 cfgFull.clientID cfgFull.clientSecret cfgFull.tokenURL
        (trimPfx (trimPfx ("bearer " ++ rest) "Bearer ") "bearer ") cfgFull.targetAudience
        cfgFull.targetScopes = .ok "T2" := rfl
    rw [processRequestHeadersEvent, if_pos hc]
    simp only [hauth]
    rw [if_pos hne, if_pos hne2, hex]
    simp

/-! ## Claim C6 — credential priority of the two loadConfig variants -/

/-- An environment carrying static credentials (and a token URL). -/
def envStatic : String → String := fun k =>
  if k = "CLIENT_ID" then "env-id"
  else if k = "CLIENT_SECRET" then "env-secret"
  else if k = "TOKEN_URL" then "http://keycloak/token"
  else ""

/-- A filesystem carrying non-empty credential files at the default paths. -/
def fsShared : String → Option String := fun p =>
  if p = "/shared/client-id.txt" then some "file-id"
  else if p = "/shared/client-secret.txt" then some "file-secret"
  else none

/-- Claim C6 counterexample: with static environment credentials AND non-empty
credential files both present, the go-processor's `loadConfig` resolves the
FILE values, not the static environment values — the file is consulted first
and wins. -/
theorem c6_counterexample :
    envStatic "CLIENT_ID" = "env-id" ∧
    envStatic "CLIENT_SECRET" = "env-secret" ∧
    readFileContent fsShared "/shared/client-id.txt" = some "file-id" ∧
    readFileContent fsShared "/shared/client-secret.txt" = some "file-secret" ∧
    (loadConfig envStatic fsShared Config.zero).clientID = "file-id" ∧
    (loadConfig envStatic fsShared Config.zero).clientSecret = "file-secret" ∧
    "file-id" ≠ "env-id" :=
  ⟨rfl, rfl, rfl, rfl, rfl, rfl, by decide⟩

/-- Claim C6 (amended): credential priority differs between the two variants.
The quickstart variant (`loadConfigDemo`) checks the environment first: when
both `CLIENT_ID` and `CLIENT_SECRET` are set it resolves the static values.
The go-processor variant (`loadConfig`) checks the files first: whenever both
files read successfully with non-empty trimmed content, it resolves the file
values, and the environment is only a fallback. -/
theorem c6_credential_priority (env : String → String) (fs : String → Option String)
    (prev : Config) :
    (env "CLIENT_ID" ≠ "" → env "CLIENT_SECRET" ≠ "" →
      (loadConfigDemo env fs prev).clientID = env "CLIENT_ID" ∧
      (loadConfigDemo env fs prev).clientSecret = env "CLIENT_SECRET") ∧
    (∀ cid sec, readFileContent fs (credFilePaths env).1 = some cid → cid ≠ "" →
      readFileContent fs (credFilePaths env).2 = some sec → sec ≠ "" →
      (loadConfig env fs prev).clientID = cid ∧
      (loadConfig env fs prev).clientSecret = sec) := by
  constructor
  · intro h1 h2
    constructor
    · simp [loadConfigDemo, h1]
    · simp [loadConfigDemo, h2]
  · intro cid sec hf1 hc1 hf2 hc2
    constructor
    · simp [loadConfig, hf1, hc1]
    · simp [loadConfig, hf2, hc2]

/-- Claim C6 witness for the amended statement at concrete inputs. -/
theorem c6_witness :
    envStatic "CLIENT_ID" ≠ "" ∧
    (loadConfigDemo envStatic fsShared Config.zero).clientID = "env-id" ∧
    (loadConfigDemo envStatic fsShared Config.zero).clientSecret = "env-secret" ∧
    (loadConfig envStatic fsShared Config.zero).clientID = "file-id" ∧
    (loadConfig envStatic fsShared Config.zero).clientSecret = "file-secret" :=
  ⟨by decide,
   ((c6_credential_priority envStatic fsShared Config.zero).1 (by decide) (by decide)).1,
   ((c6_credential_priority envStatic fsShared Config.zero).1 (by decide) (by decide)).2,
   ((c6_credential_priority envStatic fsShared Config.zero).2 "file-id" "file-secret"
     rfl (by decide) rfl (by decide)).1,
   ((c6_credential_priority envStatic fsShared Config.zero).2 "file-id" "file-secret"
     rfl (by decide) rfl (by decide)).2⟩

/-! ## Claim C8 — the credential wait is bounded -/

/-- If no poll ever succeeds, the loop returns `false` and the clock at return
is below `deadline + 2` (one sleep interval past the deadline), for any start
at most one past the deadline. -/
theorem waitLoop_never_ready (fsAt : Nat → String → Option String) (p1 p2 : String)
    (h : ∀ t, credsReady (fsAt t) p1 p2 = false) :
    ∀ fuel now deadline, deadline ≤ now + fuel → now ≤ deadline + 1 →
      (waitForCredentialsLoop fsAt p1 p2 now deadline).1 = false ∧
      (waitForCredentialsLoop fsAt p1 p2 now deadline).2 < deadline + 2 := by
  intro fuel
  induction fuel with
  | zero =>
      intro now deadline h1 h2
      have hge : ¬ now < deadline := by omega
      rw [waitForCredentialsLoop, if_neg hge]
      exact ⟨rfl, by omega⟩
  | succ n ih =>
      intro now deadline h1 h2
      by_cases hlt : now < deadline
      · rw [waitForCredentialsLoop, if_pos hlt, h now]
        simp only [Bool.false_eq_true, if_false]
        exact ih (now + 2) deadline (by omega) (by omega)
      · rw [waitForCredentialsLoop, if_neg hlt]
        exact ⟨rfl, by omega⟩

/-- Claim C8: if the credential files never both become non-empty, the startup
wait returns `false`, and it does so before `maxWait` plus one 2-unit polling
interval has elapsed — it never blocks indefinitely (the loop is a total
function, so termination is inherent in the definition compiling). -/
theorem c8_bounded_wait (env : String → String) (fsAt : Nat → String → Option String)
    (start maxWait : Nat)
    (h : ∀ t, credsReady (fsAt t) (credFilePaths env).1 (credFilePaths env).2 = false) :
    (waitForCredentials env fsAt start maxWait).1 = false ∧
    (waitForCredentials env fsAt start maxWait).2 < start + maxWait + 2 :=
  waitLoop_never_ready fsAt (credFilePaths env).1 (credFilePaths env).2 h
    maxWait start (start + maxWait) (by omega) (by omega)

/-- An unset environment (all defaults). -/
def envDefault : String → String := fun _ => ""

/-- A filesystem on which every read fails at every time. -/
def fsEmpty : Nat → String → Option String := fun _ _ => none

/-- Claim C8 witness at concrete inputs: with a 5-unit budget the wait stops
with `false` at clock 6 < 7. -/
theorem c8_witness :
    (waitForCredentials envDefault fsEmpty 0 5).1 = false ∧
    (waitForCredentials envDefault fsEmpty 0 5).2 < 0 + 5 + 2 :=
  c8_bounded_wait envDefault fsEmpty 0 5 (fun _ => rfl)
